import Mathlib

/-!
Shallow embedding of the user_authen_service repository's pagination,
HATEOAS link generation, entity models and route handlers, together with
theorems settling the frozen claims about them.

JavaScript-level conventions used throughout the embedding:
* a JS `number` that may be `NaN` is modelled as `Option Int` (`none` = NaN);
* a nullable id (`number | null`) is modelled as `Option Int`;
* a JS `Date` object is modelled as `JsDate`, carrying both its heap
  reference (`ref`, what `===` compares for objects) and its timestamp in
  milliseconds (`millis`, what `getTime()` returns);
* a rejected database promise is modelled as `Except DbErr`, with the raw
  query outcomes supplied as explicit arguments to each repository method.
-/

/-- A JS `Date` object: `ref` models object identity (compared by `===`),
`millis` models the epoch timestamp returned by `getTime()`. -/
structure JsDate where
  ref : Nat
  millis : Int
deriving DecidableEq, Repr

/-- The whitespace characters skipped by JS `parseInt` before parsing
(ASCII fragment of the ECMAScript WhiteSpace/LineTerminator sets). -/
def isJsWhitespace (c : Char) : Bool :=
  c = ' ' || c = '\t' || c = '\n' || c = '\r' || c = '\x0b' || c = '\x0c'

/-- Decimal digit test. -/
def isDecDigit (c : Char) : Bool := '0' ≤ c && c ≤ '9'

/-- Hexadecimal digit value, if `c` is a hex digit (code points 48-57 are
the decimal digits, 97-102 lowercase `a`-`f`, 65-70 uppercase `A`-`F`). -/
def hexVal? (c : Char) : Option Nat :=
  let n := c.toNat
  if 48 ≤ n ∧ n ≤ 57 then some (n - 48)
  else if 97 ≤ n ∧ n ≤ 102 then some (n - 87)
  else if 65 ≤ n ∧ n ≤ 70 then some (n - 55)
  else none

/-- Accumulate decimal digits into a natural number. -/
def decDigitsVal (ds : List Char) : Nat :=
  ds.foldl (fun a c => a * 10 + (c.toNat - '0'.toNat)) 0

/-- Accumulate hex digits into a natural number. -/
def hexDigitsVal (ds : List Char) : Nat :=
  ds.foldl (fun a c => a * 16 + ((hexVal? c).getD 0)) 0

/-- ECMAScript `parseInt(s)` (radix unspecified) on a character list: skip
whitespace, read an optional sign, detect a `0x`/`0X` prefix (hexadecimal)
and otherwise parse the longest prefix of decimal digits; `none` is NaN. -/
def jsParseIntChars (cs : List Char) : Option Int :=
  let cs₁ := cs.dropWhile isJsWhitespace
  let signed : Bool × List Char :=
    match cs₁ with
    | '-' :: rest => (true, rest)
    | '+' :: rest => (false, rest)
    | _ => (false, cs₁)
  let neg := signed.1
  let body := signed.2
  let mkInt (n : Nat) : Int := if neg then -(n : Int) else (n : Int)
  match body with
  | '0' :: x :: rest =>
    if x = 'x' || x = 'X' then
      let ds := rest.takeWhile (fun c => (hexVal? c).isSome)
      if ds.isEmpty then none else some (mkInt (hexDigitsVal ds))
    else
      let ds := ('0' :: x :: rest).takeWhile isDecDigit
      some (mkInt (decDigitsVal ds))
  | _ =>
    let ds := body.takeWhile isDecDigit
    if ds.isEmpty then none else some (mkInt (decDigitsVal ds))

/-- Model of `parseInt(req.query.p as string)` where the parameter may be absent
(`undefined` stringifies to `"undefined"`, which parses to NaN). -/
def jsParseInt (s? : Option String) : Option Int :=
  match s? with
  | none => none
  | some s => jsParseIntChars s.data

/-- The `{limit, offset}` pair attached to the request by the pagination
middleware. -/
structure Pagination where
  limit : Int
  offset : Int
deriving DecidableEq, Repr

/-- The `paginate` middleware from `middleware/pagination.ts`: parse both query strings
with `parseInt` and substitute the defaults `25` / `0` when the result is
NaN, non-positive (limit) or negative (offset). -/
def paginate (limitS offsetS : Option String) : Pagination :=
  let limit : Int :=
    match jsParseInt limitS with
    | none => 25
    | some v => if v ≤ 0 then 25 else v
  let offset : Int :=
    match jsParseInt offsetS with
    | none => 0
    | some v => if v < 0 then 0 else v
  { limit := limit, offset := offset }

example : paginate (some "10") (some "3") = ⟨10, 3⟩ := by decide
example : paginate none none = ⟨25, 0⟩ := by decide
example : paginate (some "abc") (some "-4") = ⟨25, 0⟩ := by decide
example : paginate (some "-7") (some "0") = ⟨25, 0⟩ := by decide
example : paginate (some "0x10") (some " 12xyz") = ⟨16, 12⟩ := by decide

/-- C3: the pagination resolver is a total function of the raw query
strings; an absent, non-numeric or non-positive `limit` resolves to 25 and
otherwise to the parsed integer (no upper bound); an absent, non-numeric
or negative `offset` resolves to 0 and otherwise to the parsed integer. -/
theorem paginate_total_defaults (limitS offsetS : Option String) :
    0 < (paginate limitS offsetS).limit ∧
    0 ≤ (paginate limitS offsetS).offset ∧
    ((jsParseInt limitS = none ∨ ∃ v, jsParseInt limitS = some v ∧ v ≤ 0) →
      (paginate limitS offsetS).limit = 25) ∧
    (∀ v : Int, jsParseInt limitS = some v → 0 < v →
      (paginate limitS offsetS).limit = v) ∧
    ((jsParseInt offsetS = none ∨ ∃ v, jsParseInt offsetS = some v ∧ v < 0) →
      (paginate limitS offsetS).offset = 0) ∧
    (∀ v : Int, jsParseInt offsetS = some v → 0 ≤ v →
      (paginate limitS offsetS).offset = v) := by
  unfold paginate
  rcases hl : jsParseInt limitS with _ | v <;>
    rcases ho : jsParseInt offsetS with _ | w <;>
    simp only [hl, ho] <;>
    refine ⟨by omega, by omega, ?_, ?_, ?_, ?_⟩ <;>
    intro h <;> first
    | (intro hv hpos; simp_all)
    | (rcases h with h | ⟨u, hu, hle⟩ <;> simp_all)

/-- Witness for C3 at concrete inputs: `limit = "0"` resolves to 25 and
`offset = "xyz"` resolves to 0. -/
theorem paginate_total_defaults_witness :
    (paginate (some "0") (some "xyz")).limit = 25 ∧
    (paginate (some "0") (some "xyz")).offset = 0 := by
  have h := paginate_total_defaults (some "0") (some "xyz")
  exact ⟨h.2.2.1 (Or.inr ⟨0, by decide, by decide⟩), h.2.2.2.2.1 (Or.inl (by decide))⟩

/-- The sixteen uppercase hexadecimal digit characters, indexed by value. -/
def hexDigitChar (n : Nat) : Char := "0123456789ABCDEF".data.getD n '0'

/-- UTF-8 encoding of a character, as a list of byte values. -/
def utf8Bytes (c : Char) : List Nat :=
  let n := c.toNat
  if n < 0x80 then [n]
  else if n < 0x800 then [0xC0 + n / 64, 0x80 + n % 64]
  else if n < 0x10000 then [0xE0 + n / 4096, 0x80 + n / 64 % 64, 0x80 + n % 64]
  else [0xF0 + n / 262144, 0x80 + n / 4096 % 64, 0x80 + n / 64 % 64, 0x80 + n % 64]

/-- Percent-encoding of a single byte: `%XX` with uppercase hex digits. -/
def percentByte (b : Nat) : List Char := ['%', hexDigitChar (b / 16 % 16), hexDigitChar (b % 16)]

/-- Characters that `URLSearchParams` serialization leaves unescaped:
ASCII alphanumerics and `*`, `-`, `.`, `_`. -/
def isFormSafe (c : Char) : Bool :=
  ('0' ≤ c && c ≤ '9') || ('a' ≤ c && c ≤ 'z') || ('A' ≤ c && c ≤ 'Z') ||
    c = '*' || c = '-' || c = '.' || c = '_'

/-- Form (`application/x-www-form-urlencoded`) encoding of one character, as
performed by `URLSearchParams.toString()`. -/
def formEncodeChar (c : Char) : List Char :=
  if isFormSafe c then [c]
  else if c = ' ' then ['+']
  else ((utf8Bytes c).map percentByte).flatten

/-- Form (`application/x-www-form-urlencoded`) encoding of a string. -/
def formEncode (s : String) : String := ⟨(s.data.map formEncodeChar).flatten⟩

/-- One serialized `key=value` component of a query string. -/
def queryComp (k v : String) : String := formEncode k ++ "=" ++ formEncode v

/-- Model of `URLSearchParams.toString()`: the `&`-joined serialization of the
parameter list. -/
def serializeParams : List (String × String) → String
  | [] => ""
  | [p] => queryComp p.1 p.2
  | p :: rest => queryComp p.1 p.2 ++ "&" ++ serializeParams rest

/-- Look up a query parameter (Express `req.query.k`): `none` = absent. -/
def getParam (ps : List (String × String)) (k : String) : Option String :=
  (ps.find? (fun p => p.1 = k)).map (fun p => p.2)

/-- Replace the first binding of `k`, dropping later duplicates. -/
def setParamGo (k v : String) : List (String × String) → List (String × String)
  | [] => []
  | p :: rest =>
    if p.1 = k then (k, v) :: rest.filter (fun q => decide (q.1 ≠ k))
    else p :: setParamGo k v rest

/-- Model of `URLSearchParams.set(k, v)`: replace in place when the key is present
(keeping its position), append otherwise. -/
def setParam (ps : List (String × String)) (k v : String) : List (String × String) :=
  if ps.any (fun p => p.1 = k) then setParamGo k v ps else ps ++ [(k, v)]

/-- The links object a list endpoint returns: `self`/`first`/`last`
always, `prev`/`next` only when in range. -/
structure Links where
  self : String
  first : String
  last : String
  prev : Option String
  next : Option String
deriving DecidableEq, Repr

/-- The URL built by `generateHATEOASLinks`' `buildUrl` helper
(`src/utils/hateoas.ts`): base URL plus the original query with `limit`
set to the effective limit and `offset` set to `newOffset`. -/
def hateoasUrl (query : List (String × String)) (baseUrl : String) (limit newOffset : Int) :
    String :=
  baseUrl ++ "?" ++
    serializeParams (setParam (setParam query "limit" (toString limit)) "offset"
      (toString newOffset))

/-- The `generateHATEOASLinks` helper from `src/utils/hateoas.ts`: `self`, `first`
and an unclamped `last` always; `prev` when `offset > 0` (previous offset
clamped to 0) and `next` when `offset + limit < total`. -/
def generateHATEOASLinks (query : List (String × String)) (baseUrl : String)
    (total limit offset : Int) : Links :=
  { self := hateoasUrl query baseUrl limit offset
    first := hateoasUrl query baseUrl limit 0
    last := hateoasUrl query baseUrl limit ((total - 1).fdiv limit * limit)
    prev := if 0 < offset then some (hateoasUrl query baseUrl limit (max (offset - limit) 0))
      else none
    next := if offset + limit < total then some (hateoasUrl query baseUrl limit (offset + limit))
      else none }

/-- A URL as assembled by the template strings of the inline link builder
in `routes/users.ts` (and `routes/project.ts`): only `limit` and `offset`
appear in the query. -/
def usersUrl (baseUrl : String) (limit offset : Int) : String :=
  baseUrl ++ "?limit=" ++ toString limit ++ "&offset=" ++ toString offset

/-- The inline link builder of the users list route
(`routes/users.ts`, `router.get("/")`): unclamped `last`, `next` when
`offset + limit < total`, `prev` when `offset - limit >= 0`, and no other
query parameters. -/
def usersListLinks (baseUrl : String) (total limit offset : Int) : Links :=
  { self := usersUrl baseUrl limit offset
    first := baseUrl ++ "?limit=" ++ toString limit ++ "&offset=0"
    last := usersUrl baseUrl limit ((total - 1).fdiv limit * limit)
    prev := if 0 ≤ offset - limit then some (usersUrl baseUrl limit (offset - limit)) else none
    next := if offset + limit < total then some (usersUrl baseUrl limit (offset + limit))
      else none }

/-- The link-generation slice of the users list route: the `paginate`
middleware resolves `limit`/`offset` from the request's query, then the
handler builds its links from the base URL and those two values alone. -/
def usersIndexLinks (query : List (String × String)) (baseUrl : String) (total : Int) : Links :=
  let pg := paginate (getParam query "limit") (getParam query "offset")
  usersListLinks baseUrl total pg.limit pg.offset

example :
    (generateHATEOASLinks [("q", "abc")] "http://h/t" 30 10 10).self =
      "http://h/t?q=abc&limit=10&offset=10" := by decide
example :
    (generateHATEOASLinks [] "http://h/t" 0 25 0).last = "http://h/t?limit=25&offset=-25" := by
  decide
example : (generateHATEOASLinks [] "http://h/t" 100 25 1).prev = some "http://h/t?limit=25&offset=0" := by
  decide
example : (usersListLinks "http://h/users" 100 25 1).prev = none := by decide
example : (usersIndexLinks [("foo", "bar")] "http://h/users" 5).self =
    "http://h/users?limit=25&offset=0" := by decide

/-- Split a character list on `&`, the inverse view of query-string
serialization. -/
def splitAmp : List Char → List (List Char)
  | [] => [[]]
  | c :: rest =>
    if c = '&' then [] :: splitAmp rest
    else
      match splitAmp rest with
      | [] => [[c]]
      | g :: gs => (c :: g) :: gs

theorem splitAmp_ne_nil (cs : List Char) : splitAmp cs ≠ [] := by
  induction cs with
  | nil => simp [splitAmp]
  | cons c rest ih =>
    simp only [splitAmp]
    split
    · simp
    · rcases h : splitAmp rest with _ | ⟨g, gs⟩ <;> simp

theorem splitAmp_of_no_amp {cs : List Char} (h : ∀ c ∈ cs, c ≠ '&') :
    splitAmp cs = [cs] := by
  induction cs with
  | nil => rfl
  | cons c rest ih =>
    have hc : c ≠ '&' := h c (List.mem_cons_self c rest)
    have hrest : splitAmp rest = [rest] := ih fun x hx => h x (List.mem_cons_of_mem c hx)
    simp [splitAmp, hc, hrest]

theorem splitAmp_append_amp {a : List Char} (b : List Char) (h : ∀ c ∈ a, c ≠ '&') :
    splitAmp (a ++ '&' :: b) = a :: splitAmp b := by
  induction a with
  | nil => simp [splitAmp]
  | cons c rest ih =>
    have hc : c ≠ '&' := h c (List.mem_cons_self c rest)
    have hrest := ih fun x hx => h x (List.mem_cons_of_mem c hx)
    simp only [List.cons_append, splitAmp, if_neg hc]
    rw [show splitAmp (rest.append ('&' :: b)) = rest :: splitAmp b from hrest]

theorem mem_of_mem_hexDigitChar (n : Nat) : hexDigitChar n ∈ "0123456789ABCDEF".data := by
  unfold hexDigitChar
  rcases Nat.lt_or_ge n "0123456789ABCDEF".data.length with h | h
  · rw [List.getD_eq_getElem _ _ h]
    exact List.getElem_mem h
  · rw [List.getD_eq_default _ _ h]
    decide

/-- Every character emitted by form-encoding is a safe character, `+`,
`%` or a hex digit; in particular it is never `&` and never `=`. -/
theorem formEncode_no_amp_eq (s : String) :
    ∀ c ∈ (formEncode s).data, c ≠ '&' ∧ c ≠ '=' := by
  intro c hc
  simp only [formEncode, List.mem_flatten, List.mem_map] at hc
  obtain ⟨l, ⟨c', _, rfl⟩, hcl⟩ := hc
  unfold formEncodeChar at hcl
  split at hcl
  · rename_i hsafe
    simp only [List.mem_singleton] at hcl
    subst hcl
    constructor <;> rintro rfl <;> simp [isFormSafe] at hsafe
  · split at hcl
    · simp only [List.mem_singleton] at hcl
      subst hcl
      constructor <;> decide
    · simp only [List.mem_flatten, List.mem_map] at hcl
      obtain ⟨l', ⟨b, _, rfl⟩, hcl'⟩ := hcl
      simp only [percentByte, List.mem_cons, List.not_mem_nil, or_false] at hcl'
      rcases hcl' with rfl | rfl | rfl
      · constructor <;> decide
      · have := mem_of_mem_hexDigitChar (b / 16 % 16)
        constructor <;> intro heq <;> rw [heq] at this <;> revert this <;> decide
      · have := mem_of_mem_hexDigitChar (b % 16)
        constructor <;> intro heq <;> rw [heq] at this <;> revert this <;> decide

theorem queryComp_no_amp (k v : String) : ∀ c ∈ (queryComp k v).data, c ≠ '&' := by
  intro c hc
  simp only [queryComp, String.data_append] at hc
  rcases List.mem_append.mp hc with h | h
  · rcases List.mem_append.mp h with h' | h'
    · exact (formEncode_no_amp_eq k c h').1
    · simp only [show ("=" : String).data = ['='] from rfl, List.mem_singleton] at h'
      subst h'
      decide
  · exact (formEncode_no_amp_eq v c h).1

/-- Each parameter of the list survives serialization as an intact
`&`-delimited component of the query string. -/
theorem queryComp_mem_splitAmp_serialize {ps : List (String × String)} {k v : String}
    (h : (k, v) ∈ ps) :
    (queryComp k v).data ∈ splitAmp (serializeParams ps).data := by
  induction ps with
  | nil => cases h
  | cons p rest ih =>
    rcases rest with _ | ⟨q, rest'⟩
    · simp only [List.mem_singleton] at h
      subst h
      rw [show serializeParams [(k, v)] = queryComp k v from rfl,
        splitAmp_of_no_amp (queryComp_no_amp k v)]
      simp
    · have hser : serializeParams (p :: q :: rest') =
          queryComp p.1 p.2 ++ "&" ++ serializeParams (q :: rest') := rfl
      have hdata : (serializeParams (p :: q :: rest')).data =
          (queryComp p.1 p.2).data ++ '&' :: (serializeParams (q :: rest')).data := by
        rw [hser, String.data_append, String.data_append]
        simp
      rw [hdata, splitAmp_append_amp _ (queryComp_no_amp p.1 p.2)]
      rcases List.mem_cons.mp h with rfl | hmem
      · exact List.mem_cons_self _ _
      · exact List.mem_cons_of_mem _ (ih hmem)

theorem mem_setParam_of_ne {ps : List (String × String)} {k v : String} (k' v' : String)
    (h : (k, v) ∈ ps) (hne : k ≠ k') : (k, v) ∈ setParam ps k' v' := by
  unfold setParam
  split
  · clear * - h hne
    induction ps with
    | nil => cases h
    | cons p rest ih =>
      simp only [setParamGo]
      split
      · rename_i hp
        rcases List.mem_cons.mp h with rfl | hmem
        · exact absurd hp hne
        · exact List.mem_cons_of_mem _ (List.mem_filter.mpr ⟨hmem, by simp [hne]⟩)
      · rcases List.mem_cons.mp h with rfl | hmem
        · exact List.mem_cons_self _ _
        · exact List.mem_cons_of_mem _ (ih hmem)
  · exact List.mem_append_left _ h

theorem neg_one_fdiv_pos {l : Int} (hl : 0 < l) : (-1 : Int).fdiv l = -1 := by
  rcases l with n | n
  · match n, hl with
    | (k + 1), _ =>
      show Int.fdiv (Int.negSucc 0) (Int.ofNat (k + 1)) = -1
      simp [Int.fdiv]
  · simp at hl

/-- C1 counterexample: at `total = 0`, `limit = 25`, `offset = 0` the
shared link builder's `last` link carries `offset = -25`, not the clamped
`offset = 0` that the claim asserts. -/
theorem hateoas_last_total_zero_counterexample :
    (generateHATEOASLinks [] "http://h/t" 0 25 0).last = "http://h/t?limit=25&offset=-25" ∧
    "http://h/t?limit=25&offset=-25" ≠ "http://h/t?limit=25&offset=0" := by
  constructor <;> decide

/-- C1 amended: the `last` link of both link builders carries
`offset = floor((total-1)/limit) * limit` with no clamping; at `total = 0`
that offset equals `-limit` (so it is negative), while for `total > 0` it
is non-negative, a multiple of `limit`, and `< total`. -/
theorem hateoas_last_offset_unclamped (query : List (String × String)) (baseUrl : String)
    (total limit offset : Int) (hl : 0 < limit) (ht : 0 ≤ total) :
    (generateHATEOASLinks query baseUrl total limit offset).last =
      hateoasUrl query baseUrl limit ((total - 1).fdiv limit * limit) ∧
    (usersListLinks baseUrl total limit offset).last =
      usersUrl baseUrl limit ((total - 1).fdiv limit * limit) ∧
    (total = 0 → (total - 1).fdiv limit * limit = -limit) ∧
    (0 < total →
      0 ≤ (total - 1).fdiv limit * limit ∧
      limit ∣ (total - 1).fdiv limit * limit ∧
      (total - 1).fdiv limit * limit < total) := by
  refine ⟨rfl, rfl, ?_, ?_⟩
  · rintro rfl
    rw [show ((0 : Int) - 1) = -1 by norm_num, neg_one_fdiv_pos hl]
    ring
  · intro htpos
    rw [Int.fdiv_eq_ediv _ (by omega : (0:Int) ≤ limit)]
    have h2 := Int.ediv_mul_le (total - 1) (b := limit) (by omega)
    have h3 : 0 ≤ (total - 1) / limit := Int.ediv_nonneg (by omega) (by omega)
    exact ⟨by positivity, dvd_mul_left limit _, by omega⟩

/-- Witness for C1 amended at `total = 5`, `limit = 2`: the last offset is
non-negative, a multiple of 2 and below the total. -/
theorem hateoas_last_offset_unclamped_witness :
    0 ≤ ((5:Int) - 1).fdiv 2 * 2 ∧ (2:Int) ∣ ((5:Int) - 1).fdiv 2 * 2 ∧
      ((5:Int) - 1).fdiv 2 * 2 < 5 :=
  (hateoas_last_offset_unclamped [] "http://h/t" 5 2 0 (by decide) (by decide)).2.2.2
    (by decide)

/-- C2 counterexample: on the users list endpoint with `offset = 1`,
`limit = 25`, `total = 100` the offset is positive yet no `prev` link is
generated (the inline builder requires `offset - limit ≥ 0`). -/
theorem users_prev_rule_counterexample :
    (usersListLinks "http://h/users" 100 25 1).prev = none ∧
    ¬(((usersListLinks "http://h/users" 100 25 1).prev.isSome = true) ↔ (0:Int) < 1) := by
  constructor <;> decide

/-- C2 amended: the shared builder (`generateHATEOASLinks`) emits `next`
exactly when `offset + limit < total` (carrying `offset + limit`) and
`prev` exactly when `offset > 0` (carrying `max(offset - limit, 0)`); the
users route's inline builder emits `next` under the same rule but emits
`prev` exactly when `offset ≥ limit`. -/
theorem links_next_prev_rules (query : List (String × String)) (baseUrl : String)
    (total limit offset : Int) (hl : 0 < limit) (ho : 0 ≤ offset) (ht : 0 ≤ total) :
    ((generateHATEOASLinks query baseUrl total limit offset).next =
      if offset + limit < total then some (hateoasUrl query baseUrl limit (offset + limit))
      else none) ∧
    ((generateHATEOASLinks query baseUrl total limit offset).next.isSome ↔
      offset + limit < total) ∧
    ((generateHATEOASLinks query baseUrl total limit offset).prev =
      if 0 < offset then some (hateoasUrl query baseUrl limit (max (offset - limit) 0))
      else none) ∧
    ((generateHATEOASLinks query baseUrl total limit offset).prev.isSome ↔ 0 < offset) ∧
    ((usersListLinks baseUrl total limit offset).next.isSome ↔ offset + limit < total) ∧
    ((usersListLinks baseUrl total limit offset).prev.isSome ↔ limit ≤ offset) := by
  refine ⟨rfl, ?_, rfl, ?_, ?_, ?_⟩ <;>
    simp only [generateHATEOASLinks, usersListLinks] <;> split <;> simp_all

/-- Witness for C2 amended at `total = 10`, `limit = 2`, `offset = 4`:
the shared builder has a `prev` link there. -/
theorem links_next_prev_rules_witness :
    (generateHATEOASLinks [] "http://h/t" 10 2 4).prev.isSome ↔ (0:Int) < 4 :=
  (links_next_prev_rules [] "http://h/t" 10 2 4 (by decide) (by decide) (by decide)).2.2.2.1

/-- All links present in a links object: `self`, `first`, `last`, plus
`prev`/`next` when generated. -/
def linkList (L : Links) : List String := [L.self, L.first, L.last] ++ L.prev.toList ++ L.next.toList

/-- C4 counterexample: the users list endpoint, asked with query
`?q=zzz`, emits a `self` link that contains no trace of the `q=zzz`
parameter (no `z` occurs in the link at all). -/
theorem users_links_drop_params_counterexample :
    (usersIndexLinks [("q", "zzz")] "http://h/users" 5).self =
      "http://h/users?limit=25&offset=0" ∧
    'z' ∉ "http://h/users?limit=25&offset=0".data := by
  constructor <;> decide

/-- C4 amended: every link generated by the shared builder carries every
original query parameter other than `limit`/`offset` as an intact
`&`-delimited component; the users route's inline links are instead a
function of the resolved `limit` and `offset` alone, dropping every other
original query parameter. -/
theorem hateoas_preserves_params (query : List (String × String)) (baseUrl : String)
    (total limit offset : Int) (k v : String)
    (hk : (k, v) ∈ query) (hk1 : k ≠ "limit") (hk2 : k ≠ "offset") :
    (∀ link ∈ linkList (generateHATEOASLinks query baseUrl total limit offset),
      ∃ ps, link = baseUrl ++ "?" ++ serializeParams ps ∧
        (queryComp k v).data ∈ splitAmp (serializeParams ps).data) ∧
    (∀ (q₁ q₂ : List (String × String)) (b : String) (t : Int),
      getParam q₁ "limit" = getParam q₂ "limit" →
      getParam q₁ "offset" = getParam q₂ "offset" →
      usersIndexLinks q₁ b t = usersIndexLinks q₂ b t) := by
  constructor
  · have key : ∀ o : Int,
        ∃ ps, hateoasUrl query baseUrl limit o = baseUrl ++ "?" ++ serializeParams ps ∧
          (queryComp k v).data ∈ splitAmp (serializeParams ps).data := fun o =>
      ⟨_, rfl, queryComp_mem_splitAmp_serialize
        (mem_setParam_of_ne "offset" (toString o)
          (mem_setParam_of_ne "limit" (toString limit) hk hk1) hk2)⟩
    intro link hlink
    simp only [linkList, generateHATEOASLinks, List.mem_append, List.mem_cons,
      List.not_mem_nil, or_false] at hlink
    rcases hlink with ((rfl | rfl | rfl) | h) | h
    · exact key offset
    · exact key 0
    · exact key _
    · split at h
      · simp only [Option.toList_some, List.mem_singleton] at h
        subst h
        exact key _
      · simp at h
    · split at h
      · simp only [Option.toList_some, List.mem_singleton] at h
        subst h
        exact key _
      · simp at h
  · intro q₁ q₂ b t h₁ h₂
    simp only [usersIndexLinks, h₁, h₂]

/-- Witness for C4 amended: with query `?q=z`, the shared builder's `self`
link decomposes as base plus a query string containing `q=z` intact. -/
theorem hateoas_preserves_params_witness :
    ∃ ps, (generateHATEOASLinks [("q", "z")] "http://h/t" 5 2 0).self =
        "http://h/t" ++ "?" ++ serializeParams ps ∧
      (queryComp "q" "z").data ∈ splitAmp (serializeParams ps).data :=
  (hateoas_preserves_params [("q", "z")] "http://h/t" 5 2 0 "q" "z" (by decide) (by decide)
    (by decide)).1 _ (by simp [linkList])

/-- Error value carried by a rejected database promise. -/
abbrev DbErr : Type := String

/-- A JS value as passed in a parameterized query's value array. -/
inductive JsVal where
  | num (n : Int)
  | nan
  | str (s : String)
  | date (d : JsDate)
  | bool (b : Bool)
  | null
deriving DecidableEq, Repr

/-- One store write/read issued through `pool.query`: the SQL text and the
parameter values. -/
structure StoreOp where
  sql : String
  params : List JsVal
deriving DecidableEq, Repr

/-- A row of the `users` table as returned by `SELECT *`. -/
structure UserRow where
  user_id : Int
  sub : String
  email : String
  name : String
  picture : String
  lastLogin : JsDate
deriving DecidableEq, Repr

/-- The `User` entity of `models/user_models.ts`. -/
structure User where
  UserID : Option Int
  sub : String
  email : String
  name : String
  picture : String
  lastLogin : JsDate
deriving DecidableEq, Repr

/-- Static `User.findById`: the result of the lookup given the outcome of
its single `SELECT` query; a store error is caught and surfaces as `none`
(the date of a found row is rehydrated with `new Date(lastLogin)`, which
preserves the timestamp). -/
def User.findById (UserID : Int) (queryR : Except DbErr (List UserRow)) : Option User :=
  match queryR with
  | .error _ => none
  | .ok [] => none
  | .ok (r :: _) => some ⟨some UserID, r.sub, r.email, r.name, r.picture, r.lastLogin⟩

/-- Static `User.findAll`: result and issued queries, given the outcomes
of the count query and the data query; the `catch` block logs and
re-throws, so either store error propagates to the caller. -/
def User.findAll (limit offset : Int) (UserName : Option String)
    (countR : Except DbErr Int) (rowsR : Except DbErr (List UserRow)) :
    Except DbErr (List User × Int) × List StoreOp :=
  let filter : String × List JsVal :=
    match UserName with
    | some s => if s = "" then ("", []) else (" AND name LIKE ?", [.str ("%" ++ s ++ "%")])
    | none => ("", [])
  let countOp : StoreOp :=
    ⟨"SELECT COUNT(*) as total FROM users WHERE 1=1 " ++ filter.1, filter.2⟩
  let dataOp : StoreOp :=
    ⟨"SELECT * FROM users WHERE 1=1 " ++ filter.1 ++ " LIMIT ? OFFSET ?",
      filter.2 ++ [.num limit, .num offset]⟩
  match countR with
  | .error e => (.error e, [countOp])
  | .ok total =>
    match rowsR with
    | .error e => (.error e, [countOp, dataOp])
    | .ok rows =>
      (.ok (rows.map fun r => ⟨some r.user_id, r.sub, r.email, r.name, r.picture, r.lastLogin⟩,
        total), [countOp, dataOp])

/-- Static `User.createOrUpdate`: look the user up by `sub`, update the
row when found, insert otherwise; every store error is re-thrown by the
`catch` block. `now` models the `new Date()` values, `insR` the insert's
`insertId`. -/
def User.createOrUpdate (sub email name picture : String)
    (selR : Except DbErr (List UserRow)) (updR : Except DbErr Unit)
    (insR : Except DbErr Int) (now : JsDate) : Except DbErr User :=
  match selR with
  | .error e => .error e
  | .ok (r :: _) =>
    match updR with
    | .error e => .error e
    | .ok _ => .ok ⟨some r.user_id, sub, email, name, picture, now⟩
  | .ok [] =>
    match insR with
    | .error e => .error e
    | .ok newId => .ok ⟨some newId, sub, email, name, picture, now⟩

/-- Static `User.deleteById`: existence check, then delete; any store
error is caught and turned into `false`, exactly like an absent row. -/
def User.deleteById (id : Int) (selR : Except DbErr (List UserRow))
    (delR : Except DbErr Unit) : Bool :=
  match selR with
  | .error _ => false
  | .ok [] => false
  | .ok (_ :: _) =>
    match delR with
    | .error _ => false
    | .ok _ => true

/-- Status code produced by `router.delete("/:id")` in `routes/users.ts`:
400 for a NaN id, 204 when `deleteById` returns true, 404 otherwise (the
handler's own `catch` is unreachable because `deleteById` never throws). -/
def usersDeleteStatus (idS : String) (selR : Except DbErr (List UserRow))
    (delR : Except DbErr Unit) : Nat :=
  match jsParseIntChars idS.data with
  | none => 400
  | some id => if User.deleteById id selR delR then 204 else 404

/-- The `Project` entity of `models/files_models.ts`, with its private
dirty flag and private backing fields. -/
structure Project where
  isDirty : Bool
  ProjectID : Option Int
  owningUserID : Int
  projectName : String
  creationDate : JsDate
deriving DecidableEq, Repr

/-- The `Project` constructor: assigns the backing fields directly, so a
freshly constructed project is not dirty. -/
def Project.new (ProjectID : Option Int) (OwningUserID : Int) (ProjectName : String)
    (CreationDate : JsDate) : Project :=
  ⟨false, ProjectID, OwningUserID, ProjectName, CreationDate⟩

/-- Setter `Project.OwningUserID`: `===` on JS numbers is value equality. -/
def Project.setOwningUserID (p : Project) (value : Int) : Project :=
  if value = p.owningUserID then p
  else { p with owningUserID := value, isDirty := true }

/-- Setter `Project.ProjectName`: `===` on JS strings is value equality. -/
def Project.setProjectName (p : Project) (value : String) : Project :=
  if value = p.projectName then p
  else { p with projectName := value, isDirty := true }

/-- Setter `Project.CreationDate`: `===` on two `Date` objects compares
references, not timestamps. -/
def Project.setCreationDate (p : Project) (value : JsDate) : Project :=
  if value.ref = p.creationDate.ref then p
  else { p with creationDate := value, isDirty := true }

/-- The UPDATE issued by `Project.save` for an existing project. -/
def projectUpdateOp (p : Project) (id : Int) : StoreOp :=
  ⟨"UPDATE Project SET OwningUserID = ?, ProjectName = ?, CreationDate = ? WHERE ProjectID = ?",
    [.num p.owningUserID, .str p.projectName, .date p.creationDate, .num id]⟩

/-- The INSERT issued by `Project.save` for a new project. -/
def projectInsertOp (p : Project) : StoreOp :=
  ⟨"INSERT INTO Project (OwningUserID, ProjectName, CreationDate) VALUES (?, ?, ?)",
    [.num p.owningUserID, .str p.projectName, .date p.creationDate]⟩

/-- Method `Project.save`: a clean project returns itself with no store
access; a dirty one updates when `this.ProjectID` is truthy (non-null and
non-zero) and inserts otherwise (adopting the store's `insertId`), then
clears the flag. -/
def Project.save (p : Project) (insertId : Int) : Project × List StoreOp :=
  if p.isDirty = false then (p, [])
  else
    match p.ProjectID with
    | some id =>
      if id = 0 then
        ({ p with ProjectID := some insertId, isDirty := false }, [projectInsertOp p])
      else
        ({ p with isDirty := false }, [projectUpdateOp p id])
    | none => ({ p with ProjectID := some insertId, isDirty := false }, [projectInsertOp p])

/-- A row of the `ProjectFiles` table as returned by `SELECT *`. -/
structure FileRow where
  FileID : Int
  ProjectID : Int
  ParentDirectory : Option Int
  FileName : String
  IsDirectory : Bool
  CreationDate : JsDate
deriving DecidableEq, Repr

/-- The `ProjectFile` entity of `models/files_models.ts`. -/
structure ProjectFile where
  isDirty : Bool
  FileID : Option Int
  projectID : Int
  parentDirectory : Option Int
  fileName : String
  isDirectory : Bool
  creationDate : JsDate
deriving DecidableEq, Repr

/-- The `ProjectFile` constructor: direct field assignment, not dirty. -/
def ProjectFile.new (FileID : Option Int) (ProjectID : Int) (ParentDirectory : Option Int)
    (FileName : String) (IsDirectory : Bool) (CreationDate : JsDate) : ProjectFile :=
  ⟨false, FileID, ProjectID, ParentDirectory, FileName, IsDirectory, CreationDate⟩

/-- Setter `ProjectFile.ProjectID` (number, value equality). -/
def ProjectFile.setProjectID (f : ProjectFile) (value : Int) : ProjectFile :=
  if value = f.projectID then f
  else { f with projectID := value, isDirty := true }

/-- Setter `ProjectFile.ParentDirectory` (number or null; `===` is value
equality on numbers and `null === null` holds). -/
def ProjectFile.setParentDirectory (f : ProjectFile) (value : Option Int) : ProjectFile :=
  if value = f.parentDirectory then f
  else { f with parentDirectory := value, isDirty := true }

/-- Setter `ProjectFile.FileName` (string, value equality). -/
def ProjectFile.setFileName (f : ProjectFile) (value : String) : ProjectFile :=
  if value = f.fileName then f
  else { f with fileName := value, isDirty := true }

/-- Setter `ProjectFile.IsDirectory` (boolean, value equality). -/
def ProjectFile.setIsDirectory (f : ProjectFile) (value : Bool) : ProjectFile :=
  if value = f.isDirectory then f
  else { f with isDirectory := value, isDirty := true }

/-- Setter `ProjectFile.CreationDate`: `===` on `Date` objects compares
references, not timestamps. -/
def ProjectFile.setCreationDate (f : ProjectFile) (value : JsDate) : ProjectFile :=
  if value.ref = f.creationDate.ref then f
  else { f with creationDate := value, isDirty := true }

/-- The UPDATE issued by `ProjectFile.save` for an existing file. -/
def fileUpdateOp (f : ProjectFile) (id : Int) : StoreOp :=
  ⟨"UPDATE ProjectFiles SET ProjectID = ?, ParentDirectory = ?, FileName = ?, IsDirectory = ?, CreationDate = ? WHERE FileID = ?",
    [.num f.projectID, match f.parentDirectory with | some d => .num d | none => .null,
      .str f.fileName, .bool f.isDirectory, .date f.creationDate, .num id]⟩

/-- The INSERT issued by `ProjectFile.save` for a new file. -/
def fileInsertOp (f : ProjectFile) : StoreOp :=
  ⟨"INSERT INTO ProjectFiles (ProjectID, ParentDirectory, FileName, IsDirectory, CreationDate) VALUES (?, ?, ?, ?, ?)",
    [.num f.projectID, match f.parentDirectory with | some d => .num d | none => .null,
      .str f.fileName, .bool f.isDirectory, .date f.creationDate]⟩

/-- Method `ProjectFile.save`: same shape as `Project.save`, keyed on the
truthiness of `this.FileID`. -/
def ProjectFile.save (f : ProjectFile) (insertId : Int) : ProjectFile × List StoreOp :=
  if f.isDirty = false then (f, [])
  else
    match f.FileID with
    | some id =>
      if id = 0 then
        ({ f with FileID := some insertId, isDirty := false }, [fileInsertOp f])
      else
        ({ f with isDirty := false }, [fileUpdateOp f id])
    | none => ({ f with FileID := some insertId, isDirty := false }, [fileInsertOp f])

/-- Static `ProjectFile.deleteById`: existence check, then delete; any
store error is caught and turned into `false`. -/
def ProjectFile.deleteById (id : Int) (selR : Except DbErr (List FileRow))
    (delR : Except DbErr Unit) : Bool :=
  match selR with
  | .error _ => false
  | .ok [] => false
  | .ok (_ :: _) =>
    match delR with
    | .error _ => false
    | .ok _ => true

/-- The sort fields `ProjectFile.findAll` (and the project-files route)
accept, from `models/files_models.ts`. -/
def validSortFields : List String := ["FileID", "FileName", "CreationDate"]

/-- The order values accepted, from `models/files_models.ts`. -/
def validOrderValues : List String := ["asc", "desc"]

/-- The filters argument of `ProjectFile.findAll`. In `projectID`, the
outer option is `undefined`-ness and the inner one admits NaN from
`parseInt`. -/
structure FileFilters where
  projectID : Option (Option Int)
  fileName : Option String
  isDirectory : Option Bool
deriving DecidableEq, Repr

/-- Wrap a possibly-NaN number as a query parameter value. -/
def jsNumVal : Option Int → JsVal
  | none => .nan
  | some n => .num n

/-- Static `ProjectFile.findAll`: build the filter clauses, validate
`sort` and `order` against the allow-lists before any query is issued
(throwing on failure), then run the count query and the data query;
store errors are re-thrown. Returns the result together with the list of
queries actually executed. -/
def ProjectFile.findAll (limit offset : Int) (filters : FileFilters)
    (sort : String) (order : String)
    (countR : Except DbErr Int) (rowsR : Except DbErr (List FileRow)) :
    Except DbErr (List ProjectFile × Int) × List StoreOp :=
  let c1 : String × List JsVal :=
    match filters.projectID with
    | some v => (" AND ProjectID = ?", [jsNumVal v])
    | none => ("", [])
  let c2 : String × List JsVal :=
    match filters.fileName with
    | some s => if s = "" then ("", []) else (" AND FileName LIKE ?", [.str ("%" ++ s ++ "%")])
    | none => ("", [])
  let c3 : String × List JsVal :=
    match filters.isDirectory with
    | some b => (" AND IsDirectory = ?", [.num (if b then 1 else 0)])
    | none => ("", [])
  let filterClauses := c1.1 ++ c2.1 ++ c3.1
  let filterValues := c1.2 ++ c2.2 ++ c3.2
  if sort ∉ validSortFields then (.error ("Invalid sort field: " ++ sort), [])
  else if order ∉ validOrderValues then (.error ("Invalid order value: " ++ order), [])
  else
    let totalOp : StoreOp :=
      ⟨"SELECT COUNT(*) as total FROM ProjectFiles WHERE 1=1" ++ filterClauses, filterValues⟩
    let dataOp : StoreOp :=
      ⟨"SELECT * FROM ProjectFiles WHERE 1=1" ++ filterClauses ++ " ORDER BY " ++ sort ++
        " " ++ order ++ " LIMIT ? OFFSET ?", filterValues ++ [.num limit, .num offset]⟩
    match countR with
    | .error e => (.error e, [totalOp])
    | .ok total =>
      match rowsR with
      | .error e => (.error e, [totalOp, dataOp])
      | .ok rows =>
        (.ok (rows.map fun r =>
          ProjectFile.new (some r.FileID) r.ProjectID r.ParentDirectory r.FileName
            r.IsDirectory r.CreationDate, total), [totalOp, dataOp])

/-- Radix-10 `parseInt(s, 10)` as used for the `ProjectID` filter: no hex
prefix detection, longest decimal-digit prefix after sign. -/
def jsParseInt10Chars (cs : List Char) : Option Int :=
  let cs₁ := cs.dropWhile isJsWhitespace
  let signed : Bool × List Char :=
    match cs₁ with
    | '-' :: rest => (true, rest)
    | '+' :: rest => (false, rest)
    | _ => (false, cs₁)
  let ds := signed.2.takeWhile isDecDigit
  if ds.isEmpty then none
  else some (if signed.1 then -(decDigitsVal ds : Int) else (decDigitsVal ds : Int))

/-- The project-files list handler (`routes/project_files.ts`,
`router.get('/')` after the `paginate` middleware): validate `order` then
`sort` against the allow-lists (400 before any store access on failure),
parse the filters, call `ProjectFile.findAll`, and map its outcome to
200 or 500. Returns the status code and the store queries executed. -/
def projectFilesIndex (query : List (String × String))
    (countR : Except DbErr Int) (rowsR : Except DbErr (List FileRow)) :
    Nat × List StoreOp :=
  let pg := paginate (getParam query "limit") (getParam query "offset")
  let sort := (getParam query "sort").getD "FileID"
  let order := (getParam query "order").getD "asc"
  if order ≠ "asc" ∧ order ≠ "desc" then (400, [])
  else if sort ∉ validSortFields then (400, [])
  else
    let filters : FileFilters :=
      { projectID :=
          match getParam query "ProjectID" with
          | some s => if s = "" then none else some (jsParseInt10Chars s.data)
          | none => none
        fileName := getParam query "FileName"
        isDirectory :=
          match getParam query "IsDirectory" with
          | some s => some (s = "true")
          | none => none }
    match ProjectFile.findAll pg.limit pg.offset filters sort order countR rowsR with
    | (.error _, ops) => (500, ops)
    | (.ok _, ops) => (200, ops)

example : projectFilesIndex [("sort", "Bogus")] (.ok 0) (.ok []) = (400, []) := by decide
example : projectFilesIndex [("order", "up")] (.ok 0) (.ok []) = (400, []) := by decide
example : (projectFilesIndex [] (.ok 0) (.ok [])).1 = 200 := by decide
example : (projectFilesIndex [] (.error "down") (.ok [])).1 = 500 := by decide

/-- C5 counterexample: when the count query fails, `User.findAll`
propagates the error instead of returning an empty result. -/
theorem user_findAll_error_counterexample :
    (User.findAll 25 0 none (Except.error "db down") (Except.ok [])).1 =
      Except.error "db down" ∧
    (Except.error "db down" : Except DbErr (List User × Int)) ≠ Except.ok ([], 0) := by
  constructor
  · rfl
  · simp

/-- C5 amended: a store error during `findById` is caught and surfaces as
`none` (like a missing row), while a store error during `findAll` or
during either phase of `createOrUpdate` is re-thrown to the caller. -/
theorem user_read_write_error_semantics (id : Int) (e : DbErr) (limit offset : Int)
    (un : Option String) (rowsR : Except DbErr (List UserRow)) (total : Int)
    (sub email name picture : String) (r : UserRow) (rs : List UserRow)
    (updR : Except DbErr Unit) (insR : Except DbErr Int) (now : JsDate) :
    User.findById id (.error e) = none ∧
    User.findById id (.ok []) = none ∧
    (User.findAll limit offset un (.error e) rowsR).1 = .error e ∧
    (User.findAll limit offset un (.ok total) (.error e)).1 = .error e ∧
    User.createOrUpdate sub email name picture (.error e) updR insR now = .error e ∧
    User.createOrUpdate sub email name picture (.ok (r :: rs)) (.error e) insR now = .error e ∧
    User.createOrUpdate sub email name picture (.ok []) updR (.error e) now = .error e := by
  refine ⟨rfl, rfl, ?_, ?_, rfl, rfl, rfl⟩ <;> simp [User.findAll]

/-- C6: a request to the project-files list endpoint whose `sort` is not
in the allow-list or whose `order` is not `asc`/`desc` gets HTTP 400, and
no store query is executed. -/
theorem projectFiles_invalid_sort_order_400 (query : List (String × String))
    (countR : Except DbErr Int) (rowsR : Except DbErr (List FileRow))
    (h : (getParam query "sort").getD "FileID" ∉ validSortFields ∨
      (getParam query "order").getD "asc" ∉ validOrderValues) :
    projectFilesIndex query countR rowsR = (400, []) := by
  unfold projectFilesIndex
  rcases h with h | h
  · by_cases ho : (getParam query "order").getD "asc" ≠ "asc" ∧
        (getParam query "order").getD "asc" ≠ "desc"
    · rw [if_pos ho]
    · rw [if_neg ho, if_pos h]
  · have ho : (getParam query "order").getD "asc" ≠ "asc" ∧
        (getParam query "order").getD "asc" ≠ "desc" := by
      simpa [validOrderValues, not_or] using h
    rw [if_pos ho]

/-- Witness for C6: `?sort=Bogus` yields 400 with zero store queries. -/
theorem projectFiles_invalid_sort_order_400_witness :
    projectFilesIndex [("sort", "Bogus")] (.ok 0) (.ok []) = (400, []) :=
  projectFiles_invalid_sort_order_400 [("sort", "Bogus")] (.ok 0) (.ok []) (Or.inl (by decide))

/-- C7 counterexample: assigning a distinct `Date` object carrying the
same timestamp as the current `CreationDate` marks a clean `Project`
dirty, because the setter compares object references. -/
theorem project_date_setter_counterexample :
    ((Project.new (some 1) 42 "p" ⟨0, 1000⟩).setCreationDate ⟨1, 1000⟩).isDirty = true ∧
    (Project.new (some 1) 42 "p" ⟨0, 1000⟩).isDirty = false ∧
    (⟨1, 1000⟩ : JsDate).millis = (⟨0, 1000⟩ : JsDate).millis := by
  refine ⟨?_, rfl, rfl⟩
  decide

/-- C7 amended: for primitive-valued fields (`===` is value equality on
numbers, strings, booleans and null) an equal assignment leaves the
entity, including its dirty flag, unchanged and a differing assignment
sets the flag; for the `Date`-valued `CreationDate` the comparison is by
object reference, so any differently-referenced `Date` sets the flag
(even one carrying the same timestamp) and only the very same object
leaves it unchanged. -/
theorem setters_dirty_semantics (p : Project) (f : ProjectFile) :
    (∀ v : Int, v = p.owningUserID → p.setOwningUserID v = p) ∧
    (∀ v : Int, v ≠ p.owningUserID →
      (p.setOwningUserID v).isDirty = true ∧ (p.setOwningUserID v).owningUserID = v) ∧
    (∀ v : String, v = p.projectName → p.setProjectName v = p) ∧
    (∀ v : String, v ≠ p.projectName →
      (p.setProjectName v).isDirty = true ∧ (p.setProjectName v).projectName = v) ∧
    (∀ d : JsDate, d.ref = p.creationDate.ref → p.setCreationDate d = p) ∧
    (∀ d : JsDate, d.ref ≠ p.creationDate.ref → (p.setCreationDate d).isDirty = true) ∧
    (∀ v : Int, v = f.projectID → f.setProjectID v = f) ∧
    (∀ v : Int, v ≠ f.projectID →
      (f.setProjectID v).isDirty = true ∧ (f.setProjectID v).projectID = v) ∧
    (∀ v : Option Int, v = f.parentDirectory → f.setParentDirectory v = f) ∧
    (∀ v : Option Int, v ≠ f.parentDirectory → (f.setParentDirectory v).isDirty = true) ∧
    (∀ v : String, v = f.fileName → f.setFileName v = f) ∧
    (∀ v : String, v ≠ f.fileName → (f.setFileName v).isDirty = true) ∧
    (∀ v : Bool, v = f.isDirectory → f.setIsDirectory v = f) ∧
    (∀ v : Bool, v ≠ f.isDirectory → (f.setIsDirectory v).isDirty = true) ∧
    (∀ d : JsDate, d.ref = f.creationDate.ref → f.setCreationDate d = f) ∧
    (∀ d : JsDate, d.ref ≠ f.creationDate.ref → (f.setCreationDate d).isDirty = true) := by
  refine ⟨?_, ?_, ?_, ?_, ?_, ?_, ?_, ?_, ?_, ?_, ?_, ?_, ?_, ?_, ?_, ?_⟩ <;>
    intro v hv <;>
    simp_all [Project.setOwningUserID, Project.setProjectName, Project.setCreationDate,
      ProjectFile.setProjectID, ProjectFile.setParentDirectory, ProjectFile.setFileName,
      ProjectFile.setIsDirectory, ProjectFile.setCreationDate]

/-- Witness for C7 amended: re-assigning the current name leaves a
concrete project untouched. -/
theorem setters_dirty_semantics_witness :
    (Project.new none 1 "n" ⟨0, 0⟩).setProjectName "n" = Project.new none 1 "n" ⟨0, 0⟩ :=
  (setters_dirty_semantics (Project.new none 1 "n" ⟨0, 0⟩)
    (ProjectFile.new none 1 none "f" false ⟨0, 0⟩)).2.2.1 "n" (by decide)

/-- C8 counterexample: a dirty `Project` whose id is present but `0`
takes the INSERT branch of `save()` (the JS truthiness check treats the
present id 0 as absent), contradicting "UPDATE if the id is present". -/
theorem project_save_zero_id_counterexample :
    ((Project.mk true (some 0) 7 "X" ⟨0, 0⟩).save 99).2 =
      [projectInsertOp (Project.mk true (some 0) 7 "X" ⟨0, 0⟩)] ∧
    (projectInsertOp (Project.mk true (some 0) 7 "X" ⟨0, 0⟩)).sql =
      "INSERT INTO Project (OwningUserID, ProjectName, CreationDate) VALUES (?, ?, ?)" ∧
    (Project.mk true (some 0) 7 "X" ⟨0, 0⟩).ProjectID.isSome = true := by
  refine ⟨?_, rfl, rfl⟩
  decide

/-- C8 amended: `save()` on a clean entity returns the instance unchanged
with zero store operations; on a dirty entity it performs exactly one
write — an UPDATE when the id is present and non-zero (truthy), an INSERT
otherwise, adopting the store's `insertId` — and clears the dirty flag. -/
theorem save_dirty_semantics (p : Project) (f : ProjectFile) (insertId : Int) :
    (p.isDirty = false → p.save insertId = (p, [])) ∧
    (p.isDirty = true →
      (p.save insertId).1.isDirty = false ∧ (p.save insertId).2.length = 1 ∧
      (∀ id : Int, p.ProjectID = some id → id ≠ 0 →
        p.save insertId = ({ p with isDirty := false }, [projectUpdateOp p id])) ∧
      ((p.ProjectID = none ∨ p.ProjectID = some 0) →
        p.save insertId =
          ({ p with ProjectID := some insertId, isDirty := false }, [projectInsertOp p]))) ∧
    (f.isDirty = false → f.save insertId = (f, [])) ∧
    (f.isDirty = true →
      (f.save insertId).1.isDirty = false ∧ (f.save insertId).2.length = 1 ∧
      (∀ id : Int, f.FileID = some id → id ≠ 0 →
        f.save insertId = ({ f with isDirty := false }, [fileUpdateOp f id])) ∧
      ((f.FileID = none ∨ f.FileID = some 0) →
        f.save insertId =
          ({ f with FileID := some insertId, isDirty := false }, [fileInsertOp f]))) := by
  refine ⟨?_, ?_, ?_, ?_⟩ <;> intro hd
  · simp [Project.save, hd]
  · refine ⟨?_, ?_, ?_, ?_⟩
    · rcases hp : p.ProjectID with _ | id <;> simp [Project.save, hd, hp] <;> split <;> simp
    · rcases hp : p.ProjectID with _ | id <;> simp [Project.save, hd, hp] <;> split <;> simp
    · intro id hid hne
      simp [Project.save, hd, hid, hne]
    · rintro (hid | hid) <;> simp [Project.save, hd, hid]
  · simp [ProjectFile.save, hd]
  · refine ⟨?_, ?_, ?_, ?_⟩
    · rcases hp : f.FileID with _ | id <;> simp [ProjectFile.save, hd, hp] <;> split <;> simp
    · rcases hp : f.FileID with _ | id <;> simp [ProjectFile.save, hd, hp] <;> split <;> simp
    · intro id hid hne
      simp [ProjectFile.save, hd, hid, hne]
    · rintro (hid | hid) <;> simp [ProjectFile.save, hd, hid]

/-- Witness for C8 amended: a concrete clean project is returned as-is
with no store operations. -/
theorem save_dirty_semantics_witness :
    (Project.new (some 3) 1 "n" ⟨0, 0⟩).save 99 = (Project.new (some 3) 1 "n" ⟨0, 0⟩, []) :=
  (save_dirty_semantics (Project.new (some 3) 1 "n" ⟨0, 0⟩)
    (ProjectFile.new none 1 none "f" false ⟨0, 0⟩) 99).1 rfl

/-- C10: `deleteById` is total and never throws: it returns `true`
exactly when the existence check succeeded with a non-empty result and
the delete succeeded, and `false` both for a missing row and for a store
error in either query — so the users delete route answers 404 (not 5xx)
when the store fails during a delete. Mirrored for
`ProjectFile.deleteById`. -/
theorem deleteById_total_semantics (id : Int) (selR : Except DbErr (List UserRow))
    (delR : Except DbErr Unit) (selR' : Except DbErr (List FileRow)) :
    (User.deleteById id selR delR = true ↔
      ((∃ r rs, selR = .ok (r :: rs)) ∧ delR = .ok ())) ∧
    (∀ e : DbErr, User.deleteById id (.error e) delR = false) ∧
    User.deleteById id (.ok []) delR = false ∧
    (∀ (e : DbErr) (r : UserRow) (rs : List UserRow),
      User.deleteById id (.ok (r :: rs)) (.error e) = false) ∧
    (ProjectFile.deleteById id selR' delR = true ↔
      ((∃ r rs, selR' = .ok (r :: rs)) ∧ delR = .ok ())) ∧
    (∀ (idS : String) (n : Int), jsParseIntChars idS.data = some n →
      ∀ e : DbErr, usersDeleteStatus idS (.error e) delR = 404) := by
  refine ⟨?_, ?_, ?_, ?_, ?_, ?_⟩
  · rcases selR with e | (_ | ⟨r, rs⟩) <;> rcases delR with e' | u <;>
      simp [User.deleteById]
  · intro e
    simp [User.deleteById]
  · simp [User.deleteById]
  · intro e r rs
    simp [User.deleteById]
  · rcases selR' with e | (_ | ⟨r, rs⟩) <;> rcases delR with e' | u <;>
      simp [ProjectFile.deleteById]
  · intro idS n hn e
    unfold usersDeleteStatus
    rw [hn]
    simp [User.deleteById]

/-- Witness for C10: deleting id 7 while the store is down yields 404. -/
theorem deleteById_total_semantics_witness :
    usersDeleteStatus "7" (.error "down") (.ok ()) = 404 :=
  (deleteById_total_semantics 7 (.ok []) (.ok ()) (.ok [])).2.2.2.2.2 "7" 7 (by decide) "down"

/-- The sixteen lowercase hexadecimal digit characters, indexed by value,
as used by `JSON.stringify` in `\u00xx` escapes. -/
def hexLowerChar (n : Nat) : Char := "0123456789abcdef".data.getD n '0'

/-- A scalar JSON value: the value forms that occur in the entity
serializers (null, booleans, integral numbers, strings). -/
inductive JAtom where
  | null
  | bool (b : Bool)
  | num (n : Int)
  | str (s : String)
deriving DecidableEq, Repr

/-- The JSON fragment produced by the entity serializers: a scalar, or a
flat object whose values are scalars. -/
inductive Json where
  | atom (a : JAtom)
  | obj (fields : List (String × JAtom))
deriving DecidableEq, Repr

/-- Escaping of one character inside a JSON string literal, as performed
by `JSON.stringify`: named escapes for `"`, backslash and the common
control characters, `\u00xx` for the remaining control characters, and
the character itself otherwise. -/
def escapeChar (c : Char) : List Char :=
  if c = '"' then ['\\', '"']
  else if c = '\\' then ['\\', '\\']
  else if c = '\x08' then ['\\', 'b']
  else if c = '\x0c' then ['\\', 'f']
  else if c = '\n' then ['\\', 'n']
  else if c = '\r' then ['\\', 'r']
  else if c = '\t' then ['\\', 't']
  else if c.toNat < 0x20 then
    ['\\', 'u', '0', '0', hexLowerChar (c.toNat / 16), hexLowerChar (c.toNat % 16)]
  else [c]

/-- Escaping of a character list. -/
def escapeChars (cs : List Char) : List Char := (cs.map escapeChar).flatten

/-- A JSON string literal: quote, escaped body, quote. -/
def quoteChars (s : String) : List Char := '"' :: escapeChars s.data ++ ['"']

/-- Decimal digit characters of a natural number, with explicit fuel so
that the definition reduces by iota (the fuel is an upper bound on the
number; division by ten strictly decreases below it). -/
def natToCharsAux : Nat → Nat → List Char
  | 0, n => [hexDigitChar n]
  | fuel + 1, n =>
    if n < 10 then [hexDigitChar n]
    else natToCharsAux fuel (n / 10) ++ [hexDigitChar (n % 10)]

/-- Decimal digit characters of a natural number. -/
def natToChars (n : Nat) : List Char := natToCharsAux n n

/-- Decimal character rendering of an integer (`Number#toString` for the
integral numbers at hand). -/
def intToChars (n : Int) : List Char :=
  if n < 0 then '-' :: natToChars n.natAbs else natToChars n.toNat

/-- Serialization of a scalar JSON value. -/
def atomChars : JAtom → List Char
  | .null => "null".data
  | .bool true => "true".data
  | .bool false => "false".data
  | .num n => intToChars n
  | .str s => quoteChars s

/-- Serialization of one `"key":value` member. -/
def fieldChars (k : String) (a : JAtom) : List Char := quoteChars k ++ ':' :: atomChars a

/-- Serialization of an object's members, comma-separated. -/
def fieldsChars : List (String × JAtom) → List Char
  | [] => []
  | [kv] => fieldChars kv.1 kv.2
  | kv :: rest => fieldChars kv.1 kv.2 ++ ',' :: fieldsChars rest

/-- Serialization of a (flat) JSON value, as `JSON.stringify` renders it
(no added whitespace). -/
def jsonChars : Json → List Char
  | .atom a => atomChars a
  | .obj fields => '\x7b' :: fieldsChars fields ++ ['\x7d']

/-- String form of `JSON.stringify` on the flat fragment. -/
def jsonStringify (j : Json) : String := ⟨jsonChars j⟩

example : jsonStringify (.obj [("a", .num 12), ("b", .str "x\"y")]) =
    "\x7b\"a\":12,\"b\":\"x\\\"y\"\x7d" := by decide
example : jsonStringify (.atom (.num (-7))) = "-7" := by decide
example : jsonStringify (.atom (.str "a\nb")) = "\"a\\nb\"" := by decide

/-- Decoder for one named escape character inside a JSON string literal. -/
def unescapeChar (e : Char) : Option Char :=
  if e = '"' then some '"'
  else if e = '\\' then some '\\'
  else if e = '/' then some '/'
  else if e = 'b' then some '\x08'
  else if e = 'f' then some '\x0c'
  else if e = 'n' then some '\n'
  else if e = 'r' then some '\r'
  else if e = 't' then some '\t'
  else none

/-- Decoder for the four hex digits of a `\uXXXX` escape. -/
def decodeHex4 : List Char → Option (Char × List Char)
  | h1 :: h2 :: h3 :: h4 :: rest =>
    match hexVal? h1, hexVal? h2, hexVal? h3, hexVal? h4 with
    | some a, some b, some c, some d =>
      some (Char.ofNat (((a * 16 + b) * 16 + c) * 16 + d), rest)
    | _, _, _, _ => none
  | _ => none

/-- Decoder for one escape sequence (after the backslash): a named escape
or a `\uXXXX` code. -/
def parseEscapeToken : List Char → Option (Char × List Char)
  | [] => none
  | e :: rest =>
    if e = 'u' then decodeHex4 rest
    else
      match unescapeChar e with
      | some ch => some (ch, rest)
      | none => none

/-- Parser for the body of a JSON string literal (after the opening
quote), consuming until a bare closing quote and decoding escapes; the
fuel bounds the number of decoded characters. -/
def parseSBAux : Nat → List Char → Option (List Char × List Char)
  | 0, _ => none
  | fuel + 1, cs =>
    match cs with
    | [] => none
    | c :: rest =>
      if c = '"' then some ([], rest)
      else if c = '\\' then
        match parseEscapeToken rest with
        | some (ch, rest') => (fun p => (ch :: p.1, p.2)) <$> parseSBAux fuel rest'
        | none => none
      else (fun p => (c :: p.1, p.2)) <$> parseSBAux fuel rest

/-- Parser for the body of a JSON string literal, with the input length
as (always sufficient) fuel. -/
def parseStringBody (cs : List Char) : Option (List Char × List Char) :=
  parseSBAux cs.length cs

/-- Parser for an unsigned decimal number: longest digit prefix. -/
def parseNat (cs : List Char) : Option (Nat × List Char) :=
  let ds := cs.takeWhile isDecDigit
  if ds.isEmpty then none else some (decDigitsVal ds, cs.drop ds.length)

/-- Matcher for a fixed expected character sequence. -/
def expectChars : List Char → List Char → Option (List Char)
  | [], cs => some cs
  | p :: ps, cs =>
    match cs with
    | [] => none
    | c :: cs' => if c = p then expectChars ps cs' else none

/-- Parser for a scalar JSON value. -/
def parseAtom : List Char → Option (JAtom × List Char)
  | [] => none
  | c :: rest =>
    if c = 'n' then
      match expectChars "ull".data rest with
      | some r => some (.null, r)
      | none => none
    else if c = 't' then
      match expectChars "rue".data rest with
      | some r => some (.bool true, r)
      | none => none
    else if c = 'f' then
      match expectChars "alse".data rest with
      | some r => some (.bool false, r)
      | none => none
    else if c = '"' then (fun p => (.str ⟨p.1⟩, p.2)) <$> parseStringBody rest
    else if c = '-' then (fun p => (.num (-(p.1 : Int)), p.2)) <$> parseNat rest
    else (fun p => (.num ((p.1 : Nat) : Int), p.2)) <$> parseNat (c :: rest)

/-- Parser for the members of a non-empty flat object, after the opening
brace; the fuel bounds the number of members. -/
def parseFields : Nat → List Char → Option (List (String × JAtom) × List Char)
  | 0, _ => none
  | fuel + 1, cs =>
    match cs with
    | '"' :: rest =>
      match parseStringBody rest with
      | some (kd, rest₁) =>
        match rest₁ with
        | ':' :: rest₂ =>
          match parseAtom rest₂ with
          | some (v, rest₃) =>
            match rest₃ with
            | ',' :: rest₄ =>
              match parseFields fuel rest₄ with
              | some (fs, rest₅) => some ((⟨kd⟩, v) :: fs, rest₅)
              | none => none
            | '\x7d' :: rest₄ => some ([(⟨kd⟩, v)], rest₄)
            | _ => none
          | none => none
        | _ => none
      | none => none
    | _ => none

/-- Parser for a flat JSON value. -/
def parseJson (cs : List Char) : Option (Json × List Char) :=
  match cs with
  | [] => none
  | c :: rest =>
    if c = '\x7b' then
      if rest.head? = some '\x7d' then some (.obj [], rest.tail)
      else (fun p => (.obj p.1, p.2)) <$> parseFields (c :: rest).length rest
    else (fun p => (.atom p.1, p.2)) <$> parseAtom (c :: rest)

/-- Parse a complete JSON document (a single parse of `JSON.parse` on the
flat fragment, requiring all input to be consumed). -/
def jsonParse (s : String) : Option Json :=
  match parseJson s.data with
  | some (j, []) => some j
  | _ => none

example : jsonParse "\x7b\"a\":12,\"b\":\"x\\\"y\"\x7d" =
    some (.obj [("a", .num 12), ("b", .str "x\"y")]) := by decide
example : jsonParse (jsonStringify (.obj [("a", .num (-3)), ("b", .null)])) =
    some (.obj [("a", .num (-3)), ("b", .null)]) := by decide
example : jsonParse (jsonStringify (.atom (.str "a\n\x01é"))) =
    some (.atom (.str "a\n\x01é")) := by decide

theorem hexVal?_hexLowerChar {k : Nat} (h : k < 16) : hexVal? (hexLowerChar k) = some k := by
  interval_cases k <;> rfl

theorem isDecDigit_hexDigitChar {k : Nat} (h : k < 10) : isDecDigit (hexDigitChar k) = true := by
  interval_cases k <;> rfl

theorem hexDigitChar_toNat {k : Nat} (h : k < 10) : (hexDigitChar k).toNat = 48 + k := by
  interval_cases k <;> rfl

theorem natToCharsAux_digits :
    ∀ (fuel n : Nat), n ≤ fuel → ∀ c ∈ natToCharsAux fuel n, isDecDigit c = true
  | 0, n, h => by
    have hn : n = 0 := by omega
    subst hn
    intro c hc
    simp only [natToCharsAux, List.mem_singleton] at hc
    subst hc
    decide
  | fuel + 1, n, h => by
    intro c hc
    by_cases h10 : n < 10
    · simp only [natToCharsAux, if_pos h10, List.mem_singleton] at hc
      subst hc
      exact isDecDigit_hexDigitChar h10
    · simp only [natToCharsAux, if_neg h10, List.mem_append, List.mem_singleton] at hc
      rcases hc with hc | hc
      · have hdiv : n / 10 ≤ fuel := by
          have := Nat.div_lt_self (show 0 < n by omega) (show 1 < 10 by omega)
          omega
        exact natToCharsAux_digits fuel (n / 10) hdiv c hc
      · subst hc
        exact isDecDigit_hexDigitChar (Nat.mod_lt n (by omega))

theorem decDigitsVal_append_singleton (ds : List Char) (c : Char) :
    decDigitsVal (ds ++ [c]) = decDigitsVal ds * 10 + (c.toNat - 48) := by
  simp [decDigitsVal, List.foldl_append]

theorem natToCharsAux_val :
    ∀ (fuel n : Nat), n ≤ fuel → decDigitsVal (natToCharsAux fuel n) = n
  | 0, n, h => by
    have hn : n = 0 := by omega
    subst hn
    rfl
  | fuel + 1, n, h => by
    by_cases h10 : n < 10
    · simp only [natToCharsAux, if_pos h10]
      show decDigitsVal [hexDigitChar n] = n
      simp [decDigitsVal, hexDigitChar_toNat h10]
    · have hdiv : n / 10 ≤ fuel := by
        have := Nat.div_lt_self (show 0 < n by omega) (show 1 < 10 by omega)
        omega
      simp only [natToCharsAux, if_neg h10, decDigitsVal_append_singleton,
        natToCharsAux_val fuel (n / 10) hdiv, hexDigitChar_toNat (Nat.mod_lt n (by omega))]
      omega

theorem natToCharsAux_ne_nil (fuel n : Nat) : natToCharsAux fuel n ≠ [] := by
  cases fuel with
  | zero => simp [natToCharsAux]
  | succ fuel =>
    simp only [natToCharsAux]
    split <;> simp

theorem natToChars_digits (n : Nat) : ∀ c ∈ natToChars n, isDecDigit c = true :=
  natToCharsAux_digits n n le_rfl

theorem natToChars_val (n : Nat) : decDigitsVal (natToChars n) = n :=
  natToCharsAux_val n n le_rfl

theorem natToChars_ne_nil (n : Nat) : natToChars n ≠ [] := natToCharsAux_ne_nil n n

theorem parseNat_natToChars (n : Nat) (rest : List Char)
    (hrest : ∀ c, rest.head? = some c → isDecDigit c = false) :
    parseNat (natToChars n ++ rest) = some (n, rest) := by
  have htake : (natToChars n ++ rest).takeWhile isDecDigit = natToChars n := by
    rw [List.takeWhile_append]
    rw [List.takeWhile_eq_self_iff.mpr (natToChars_digits n)]
    rw [if_pos rfl]
    rcases rest with _ | ⟨c, rest'⟩
    · simp
    · rw [List.takeWhile_cons_of_neg]
      · simp
      · simp [hrest c rfl]
  unfold parseNat
  simp only [htake]
  rw [if_neg (by simp [List.isEmpty_iff, natToChars_ne_nil])]
  rw [natToChars_val, List.drop_left]

theorem escapeChars_cons (c : Char) (cs : List Char) :
    escapeChars (c :: cs) = escapeChar c ++ escapeChars cs := by
  simp [escapeChars]

theorem parseSBAux_escapeChars :
    ∀ (cs rest : List Char) (fuel : Nat), cs.length + 1 ≤ fuel →
      parseSBAux fuel (escapeChars cs ++ '"' :: rest) = some (cs, rest)
  | [], rest, fuel, h => by
    rcases fuel with _ | fuel'
    · exact absurd h (by omega)
    · simp [escapeChars, parseSBAux]
  | c :: cs', rest, fuel, h => by
    rcases fuel with _ | fuel'
    · exact absurd h (by omega)
    · have hfuel : cs'.length + 1 ≤ fuel' := by
        simp only [List.length_cons] at h
        omega
      rw [escapeChars_cons, List.append_assoc]
      unfold escapeChar
      split_ifs with h1 h2 h3 h4 h5 h6 h7 h8
      · subst h1
        simp [parseSBAux, parseEscapeToken, unescapeChar,
          parseSBAux_escapeChars cs' rest fuel' hfuel]
      · subst h2
        simp [parseSBAux, parseEscapeToken, unescapeChar,
          parseSBAux_escapeChars cs' rest fuel' hfuel]
      · subst h3
        simp [parseSBAux, parseEscapeToken, unescapeChar,
          parseSBAux_escapeChars cs' rest fuel' hfuel]
      · subst h4
        simp [parseSBAux, parseEscapeToken, unescapeChar,
          parseSBAux_escapeChars cs' rest fuel' hfuel]
      · subst h5
        simp [parseSBAux, parseEscapeToken, unescapeChar,
          parseSBAux_escapeChars cs' rest fuel' hfuel]
      · subst h6
        simp [parseSBAux, parseEscapeToken, unescapeChar,
          parseSBAux_escapeChars cs' rest fuel' hfuel]
      · subst h7
        simp [parseSBAux, parseEscapeToken, unescapeChar,
          parseSBAux_escapeChars cs' rest fuel' hfuel]
      · have e1 : hexVal? (hexLowerChar (c.toNat / 16)) = some (c.toNat / 16) :=
          hexVal?_hexLowerChar (by omega)
        have e2 : hexVal? (hexLowerChar (c.toNat % 16)) = some (c.toNat % 16) :=
          hexVal?_hexLowerChar (Nat.mod_lt _ (by omega))
        have harith : c.toNat / 16 * 16 + c.toNat % 16 = c.toNat := by omega
        have e0 : hexVal? '0' = some 0 := rfl
        simp [parseSBAux, parseEscapeToken, decodeHex4, e0, e1, e2, harith, Char.ofNat_toNat,
          parseSBAux_escapeChars cs' rest fuel' hfuel]
      · simp [parseSBAux, h1, h2, parseSBAux_escapeChars cs' rest fuel' hfuel]

theorem escapeChar_length_pos (c : Char) : 1 ≤ (escapeChar c).length := by
  unfold escapeChar
  split_ifs <;> simp

theorem escapeChars_length_ge (cs : List Char) : cs.length ≤ (escapeChars cs).length := by
  induction cs with
  | nil => simp [escapeChars]
  | cons c cs ih =>
    rw [escapeChars_cons]
    have := escapeChar_length_pos c
    simp only [List.length_append, List.length_cons]
    omega

theorem parseStringBody_escapeChars (cs rest : List Char) :
    parseStringBody (escapeChars cs ++ '"' :: rest) = some (cs, rest) := by
  apply parseSBAux_escapeChars
  have := escapeChars_length_ge cs
  simp only [List.length_append, List.length_cons]
  omega

theorem parseAtom_atomChars (a : JAtom) (rest : List Char)
    (hrest : ∀ c, rest.head? = some c → isDecDigit c = false) :
    parseAtom (atomChars a ++ rest) = some (a, rest) := by
  cases a with
  | null =>
    have heq : atomChars JAtom.null ++ rest = 'n' :: 'u' :: 'l' :: 'l' :: rest := rfl
    have hu : ("ull".data : List Char) = ['u', 'l', 'l'] := rfl
    rw [heq]
    simp [parseAtom, expectChars, hu]
  | bool b =>
    cases b with
    | true =>
      have heq : atomChars (JAtom.bool true) ++ rest = 't' :: 'r' :: 'u' :: 'e' :: rest := rfl
      have hu : ("rue".data : List Char) = ['r', 'u', 'e'] := rfl
      rw [heq]
      simp [parseAtom, expectChars, hu]
    | false =>
      have heq : atomChars (JAtom.bool false) ++ rest =
          'f' :: 'a' :: 'l' :: 's' :: 'e' :: rest := rfl
      have hu : ("alse".data : List Char) = ['a', 'l', 's', 'e'] := rfl
      rw [heq]
      simp [parseAtom, expectChars, hu]
  | str s =>
    have heq : atomChars (JAtom.str s) ++ rest =
        '"' :: (escapeChars s.data ++ '"' :: rest) := by
      simp [atomChars, quoteChars]
    rw [heq]
    simp [parseAtom, parseStringBody_escapeChars]
  | num n =>
    by_cases hneg : n < 0
    · have heq : atomChars (JAtom.num n) ++ rest = '-' :: (natToChars n.natAbs ++ rest) := by
        simp [atomChars, intToChars, hneg]
      rw [heq]
      have hval : -((n.natAbs : Nat) : Int) = n := by omega
      simp [parseAtom, parseNat_natToChars n.natAbs rest hrest, hval]
      rw [abs_of_neg hneg, neg_neg]
    · rcases hnc : natToChars n.toNat with _ | ⟨c, cs'⟩
      · exact absurd hnc (natToChars_ne_nil _)
      · have hcdig : isDecDigit c = true :=
          natToChars_digits n.toNat c (by rw [hnc]; exact List.mem_cons_self _ _)
        have hcn : c ≠ 'n' := fun h => by rw [h] at hcdig; exact absurd hcdig (by decide)
        have hct : c ≠ 't' := fun h => by rw [h] at hcdig; exact absurd hcdig (by decide)
        have hcf : c ≠ 'f' := fun h => by rw [h] at hcdig; exact absurd hcdig (by decide)
        have hcq : c ≠ '"' := fun h => by rw [h] at hcdig; exact absurd hcdig (by decide)
        have hcm : c ≠ '-' := fun h => by rw [h] at hcdig; exact absurd hcdig (by decide)
        have heq : atomChars (JAtom.num n) ++ rest = c :: (cs' ++ rest) := by
          simp [atomChars, intToChars, hneg, hnc]
        rw [heq]
        have hpn : parseNat (c :: (cs' ++ rest)) = some (n.toNat, rest) := by
          rw [← List.cons_append, ← hnc]
          exact parseNat_natToChars n.toNat rest hrest
        simp [parseAtom, hcn, hct, hcf, hcq, hcm, hpn]
        omega

theorem parseFields_fieldsChars :
    ∀ (fs : List (String × JAtom)) (fuel : Nat) (rest : List Char),
      fs ≠ [] → fs.length ≤ fuel →
      parseFields fuel (fieldsChars fs ++ '\x7d' :: rest) = some (fs, rest)
  | [], _, _, hne, _ => absurd rfl hne
  | [(k, v)], fuel, rest, _, hfuel => by
    rcases fuel with _ | fuel'
    · exact absurd hfuel (by simp)
    · have heq : fieldsChars [(k, v)] ++ '\x7d' :: rest =
          '"' :: (escapeChars k.data ++ '"' :: (':' :: (atomChars v ++ '\x7d' :: rest))) := by
        simp [fieldsChars, fieldChars, quoteChars]
      rw [heq]
      have h7d : ∀ c : Char, (('\x7d' :: rest).head? = some c) → isDecDigit c = false := by
        intro c hc
        simp only [List.head?_cons, Option.some.injEq] at hc
        subst hc
        decide
      have hpa := parseAtom_atomChars v ('\x7d' :: rest) h7d
      have hps := parseStringBody_escapeChars k.data (':' :: (atomChars v ++ '\x7d' :: rest))
      simp [parseFields, hps, hpa]
  | (k, v) :: q :: fs', fuel, rest, _, hfuel => by
    rcases fuel with _ | fuel'
    · exact absurd hfuel (by simp)
    · have hfuel' : (q :: fs').length ≤ fuel' := by
        simp only [List.length_cons] at hfuel ⊢
        omega
      have heq : fieldsChars ((k, v) :: q :: fs') ++ '\x7d' :: rest =
          '"' :: (escapeChars k.data ++ '"' :: (':' :: (atomChars v ++
            ',' :: (fieldsChars (q :: fs') ++ '\x7d' :: rest)))) := by
        simp [fieldsChars, fieldChars, quoteChars]
      rw [heq]
      have hcm : ∀ c : Char,
          ((',' :: (fieldsChars (q :: fs') ++ '\x7d' :: rest)).head? = some c) →
            isDecDigit c = false := by
        intro c hc
        simp only [List.head?_cons, Option.some.injEq] at hc
        subst hc
        decide
      have hpa := parseAtom_atomChars v _ hcm
      have hps := parseStringBody_escapeChars k.data
        (':' :: (atomChars v ++ ',' :: (fieldsChars (q :: fs') ++ '\x7d' :: rest)))
      have hrec := parseFields_fieldsChars (q :: fs') fuel' rest (by simp) hfuel'
      simp [parseFields, hps, hpa, hrec]

theorem fieldsChars_head_quote :
    ∀ (fs : List (String × JAtom)), fs ≠ [] → ∃ t, fieldsChars fs = '"' :: t
  | [], h => absurd rfl h
  | [(k, v)], _ =>
    ⟨escapeChars k.data ++ '"' :: ':' :: atomChars v,
      by simp [fieldsChars, fieldChars, quoteChars]⟩
  | (k, v) :: q :: fs', _ =>
    ⟨escapeChars k.data ++ '"' :: ':' :: (atomChars v ++ ',' :: fieldsChars (q :: fs')),
      by simp [fieldsChars, fieldChars, quoteChars]⟩

theorem fieldChars_length_pos (k : String) (v : JAtom) : 1 ≤ (fieldChars k v).length := by
  simp [fieldChars, quoteChars]

theorem fieldsChars_length_ge : ∀ fs : List (String × JAtom), fs.length ≤ (fieldsChars fs).length
  | [] => by simp [fieldsChars]
  | [(k, v)] => by simpa [fieldsChars] using fieldChars_length_pos k v
  | (k, v) :: q :: fs' => by
    have h1 := fieldChars_length_pos k v
    have h2 := fieldsChars_length_ge (q :: fs')
    simp only [fieldsChars, List.length_append, List.length_cons] at h2 ⊢
    omega

theorem jsonParse_stringify_obj (fs : List (String × JAtom)) (hne : fs ≠ []) :
    jsonParse (jsonStringify (.obj fs)) = some (.obj fs) := by
  obtain ⟨t, ht⟩ := fieldsChars_head_quote fs hne
  have hdata : (jsonStringify (Json.obj fs)).data = '\x7b' :: (fieldsChars fs ++ ['\x7d']) := rfl
  have hfuel : fs.length ≤ ('\x7b' :: (fieldsChars fs ++ ['\x7d'])).length := by
    have := fieldsChars_length_ge fs
    simp only [List.length_cons, List.length_append]
    omega
  have hpf := parseFields_fieldsChars fs ('\x7b' :: (fieldsChars fs ++ ['\x7d'])).length []
    hne hfuel
  unfold jsonParse
  rw [hdata]
  rw [show (fieldsChars fs ++ ['\x7d'] : List Char) = fieldsChars fs ++ '\x7d' :: [] from rfl]
    at hpf ⊢
  rw [ht] at hpf ⊢
  simp only [List.cons_append, List.length_cons, List.length_append,
    List.length_singleton, List.length_nil, Nat.zero_add] at hpf
  simp [parseJson, hpf]

theorem jsonParse_stringify_atom (a : JAtom) :
    jsonParse (jsonStringify (.atom a)) = some (.atom a) := by
  have hhead : ∃ c t, atomChars a = c :: t ∧ c ≠ '\x7b' := by
    cases a with
    | null => exact ⟨'n', _, rfl, by decide⟩
    | bool b =>
      cases b with
      | true => exact ⟨'t', _, rfl, by decide⟩
      | false => exact ⟨'f', _, rfl, by decide⟩
    | str s => exact ⟨'"', _, rfl, by decide⟩
    | num n =>
      by_cases hneg : n < 0
      · exact ⟨'-', natToChars n.natAbs, by simp [atomChars, intToChars, hneg], by decide⟩
      · rcases hnc : natToChars n.toNat with _ | ⟨c, cs'⟩
        · exact absurd hnc (natToChars_ne_nil _)
        · have hcdig : isDecDigit c = true :=
            natToChars_digits n.toNat c (by rw [hnc]; exact List.mem_cons_self _ _)
          refine ⟨c, cs', by simp [atomChars, intToChars, hneg, hnc], ?_⟩
          intro h
          rw [h] at hcdig
          exact absurd hcdig (by decide)
  obtain ⟨c, t, hct, hcb⟩ := hhead
  have hpa := parseAtom_atomChars a [] (by intro c hc; simp at hc)
  rw [List.append_nil] at hpa
  have hdata : (jsonStringify (Json.atom a)).data = atomChars a := rfl
  unfold jsonParse
  rw [hdata, hct]
  simp only [parseJson]
  rw [if_neg hcb, ← hct, hpa]
  rfl

/-- Zero-padded decimal rendering. -/
def padNat (width n : Nat) : List Char :=
  let ds := natToChars n
  List.replicate (width - ds.length) '0' ++ ds

/-- Model of `Date.prototype.toISOString` (the serialization
`JSON.stringify` uses for `Date` values, via `Date.prototype.toJSON`):
split the epoch milliseconds into civil date and time of day and render
`YYYY-MM-DDTHH:mm:ss.sssZ` (expanded `±YYYYYY` years outside 0-9999). -/
def isoOfMillis (ms : Int) : String :=
  let days := ms.fdiv 86400000
  let msOfDay := (ms - days * 86400000).toNat
  let hour := msOfDay / 3600000
  let minute := msOfDay % 3600000 / 60000
  let second := msOfDay % 60000 / 1000
  let milli := msOfDay % 1000
  let z := days + 719468
  let era := z.fdiv 146097
  let doe := (z - era * 146097).toNat
  let yoe := (doe - doe / 1460 + doe / 36524 - doe / 146096) / 365
  let doy := doe - (365 * yoe + yoe / 4 - yoe / 100)
  let mp := (5 * doy + 2) / 153
  let d := doy - (153 * mp + 2) / 5 + 1
  let m := if mp < 10 then mp + 3 else mp - 9
  let y : Int := (yoe : Int) + era * 400 + (if m ≤ 2 then 1 else 0)
  let yearPart : List Char :=
    if 0 ≤ y ∧ y ≤ 9999 then padNat 4 y.toNat
    else if y < 0 then '-' :: padNat 6 y.natAbs
    else '+' :: padNat 6 y.toNat
  ⟨yearPart ++ '-' :: padNat 2 m ++ '-' :: padNat 2 d ++ 'T' :: padNat 2 hour ++
    ':' :: padNat 2 minute ++ ':' :: padNat 2 second ++ '.' :: padNat 3 milli ++ ['Z']⟩

example : isoOfMillis 0 = "1970-01-01T00:00:00.000Z" := by decide
example : isoOfMillis (-1) = "1969-12-31T23:59:59.999Z" := by decide
example : isoOfMillis 1600000000000 = "2020-09-13T12:26:40.000Z" := by decide

/-- Serialization of a `Date` value inside `JSON.stringify`. -/
def jsDateAtom (d : JsDate) : JAtom := .str (isoOfMillis d.millis)

/-- Serialization of a nullable number. -/
def optNumAtom : Option Int → JAtom
  | none => .null
  | some n => .num n

/-- The fields `User.toJSON` lists, in source order. -/
def User.jsonFields (u : User) : List (String × JAtom) :=
  [("UserID", optNumAtom u.UserID), ("sub", .str u.sub), ("email", .str u.email),
    ("name", .str u.name), ("picture", .str u.picture), ("lastLogin", jsDateAtom u.lastLogin)]

/-- Method `User.toJSON`: a JSON-encoded STRING (the result of
`JSON.stringify` over the listed fields), not a plain object. -/
def User.toJSON (u : User) : String := jsonStringify (.obj (User.jsonFields u))

/-- The body `res.json(user)` sends: `JSON.stringify(user)` invokes the
`toJSON` method, receives a string, and serializes that string — a
doubly-encoded JSON document. -/
def resJsonUser (u : User) : String := jsonStringify (.atom (.str (User.toJSON u)))

/-- The fields `Project.toJSON` lists, in source order. -/
def Project.jsonFields (p : Project) : List (String × JAtom) :=
  [("ProjectID", optNumAtom p.ProjectID), ("OwningUserID", .num p.owningUserID),
    ("ProjectName", .str p.projectName), ("CreationDate", jsDateAtom p.creationDate)]

/-- Method `Project.toJSON`: a JSON-encoded string. -/
def Project.toJSON (p : Project) : String := jsonStringify (.obj (Project.jsonFields p))

/-- The body `res.json(project)` sends. -/
def resJsonProject (p : Project) : String := jsonStringify (.atom (.str (Project.toJSON p)))

/-- The fields `ProjectFile.toJSON` lists, in source order. -/
def ProjectFile.jsonFields (f : ProjectFile) : List (String × JAtom) :=
  [("FileID", optNumAtom f.FileID), ("ProjectID", .num f.projectID),
    ("ParentDirectory", optNumAtom f.parentDirectory), ("FileName", .str f.fileName),
    ("IsDirectory", .bool f.isDirectory), ("CreationDate", jsDateAtom f.creationDate)]

/-- Method `ProjectFile.toJSON`: a JSON-encoded string. -/
def ProjectFile.toJSON (f : ProjectFile) : String :=
  jsonStringify (.obj (ProjectFile.jsonFields f))

/-- The body `res.json(file)` sends. -/
def resJsonFile (f : ProjectFile) : String :=
  jsonStringify (.atom (.str (ProjectFile.toJSON f)))

/-- C9: every entity's `toJSON` returns a JSON-encoded string (the result
of `JSON.stringify` over the listed fields), not a plain object; the
route handlers' `res.json` therefore serializes that string again,
producing a doubly-encoded JSON document whose single parse yields a JSON
string (not an object), while a single parse of the `toJSON` output
itself yields exactly the advertised field names and values. -/
theorem toJSON_double_encoding (u : User) (p : Project) (f : ProjectFile) :
    User.toJSON u = jsonStringify (.obj (User.jsonFields u)) ∧
    jsonParse (User.toJSON u) = some (.obj (User.jsonFields u)) ∧
    resJsonUser u = jsonStringify (.atom (.str (User.toJSON u))) ∧
    jsonParse (resJsonUser u) = some (.atom (.str (User.toJSON u))) ∧
    Project.toJSON p = jsonStringify (.obj (Project.jsonFields p)) ∧
    jsonParse (Project.toJSON p) = some (.obj (Project.jsonFields p)) ∧
    resJsonProject p = jsonStringify (.atom (.str (Project.toJSON p))) ∧
    jsonParse (resJsonProject p) = some (.atom (.str (Project.toJSON p))) ∧
    ProjectFile.toJSON f = jsonStringify (.obj (ProjectFile.jsonFields f)) ∧
    jsonParse (ProjectFile.toJSON f) = some (.obj (ProjectFile.jsonFields f)) ∧
    resJsonFile f = jsonStringify (.atom (.str (ProjectFile.toJSON f))) ∧
    jsonParse (resJsonFile f) = some (.atom (.str (ProjectFile.toJSON f))) :=
  ⟨rfl, jsonParse_stringify_obj _ (by simp [User.jsonFields]), rfl,
    jsonParse_stringify_atom _,
    rfl, jsonParse_stringify_obj _ (by simp [Project.jsonFields]), rfl,
    jsonParse_stringify_atom _,
    rfl, jsonParse_stringify_obj _ (by simp [ProjectFile.jsonFields]), rfl,
    jsonParse_stringify_atom _⟩

set_option maxRecDepth 4096 in
example :
    jsonParse (User.toJSON ⟨some 1, "s|1", "u@x.com", "Jo Do", "http://p/x.jpg", ⟨0, 0⟩⟩) =
      some (.obj [("UserID", .num 1), ("sub", .str "s|1"), ("email", .str "u@x.com"),
        ("name", .str "Jo Do"), ("picture", .str "http://p/x.jpg"),
        ("lastLogin", .str "1970-01-01T00:00:00.000Z")]) := by decide
